import Mathlib

/-!
# Verification of the MSO7034B SCPI capture script

A shallow embedding of `mso7034b-scpi-capture.py`: the identity check, the
preamble parse, the voltage/time scaling pipeline, and the module-level
command sequence are translated from the source.  Python floating-point
values are modelled as exact rationals (`ℚ`); Python exceptions raised by
list indexing / tuple unpacking / `float()` are modelled as `Option`
results or explicit result constructors, as noted at each definition.

Parts of the specification that have no executable counterpart in the
script (sample classification, which exists only as a comment block, and
the binary-block sample decoding, which the script delegates to the
`pyvisa` library) are modelled from the spec and marked as such.
-/

/-- Python's `str.split(',')` on the character list of a reply.
`"".split(',') == ['']`, so the result is never the empty list. -/
def splitComma : List Char → List (List Char)
  | [] => [[]]
  | c :: cs =>
    if c = ',' then [] :: splitComma cs
    else
      match splitComma cs with
      | f :: rest => (c :: f) :: rest
      | [] => [[c]]

theorem splitComma_ne_nil (cs : List Char) : splitComma cs ≠ [] := by
  induction cs with
  | nil => simp [splitComma]
  | cons c cs ih =>
    simp only [splitComma]
    by_cases h : c = ','
    · simp [h]
    · simp only [if_neg h]
      cases hs : splitComma cs with
      | nil => simp
      | cons f rest => simp

/-- A character list without a comma splits into the single field it is. -/
theorem splitComma_of_no_comma (cs : List Char) (h : ',' ∉ cs) :
    splitComma cs = [cs] := by
  induction cs with
  | nil => rfl
  | cons c cs ih =>
    simp only [List.mem_cons, not_or] at h
    have hc : ¬ c = ',' := fun hc => h.1 hc.symm
    rw [splitComma, if_neg hc, ih h.2]

/-- Outcome of the identity check at line 40 of the script:
`ok` — the reply's second comma-separated field equals `MSO7034B` and the
script continues; `mismatch` — the field exists but differs, and the
script aborts via `exit(...)`; `fault` — the reply has no second field and
Python raises `IndexError` on `r.split(',')[1]`. -/
inductive IdnResult where
  | ok
  | mismatch
  | fault
deriving DecidableEq

/-- Line 39–41: `r = scope.query('*idn?')`;
`if r.split(',')[1] != 'MSO7034B': exit(...)`. -/
def idn_check (r : String) : IdnResult :=
  match (splitComma r.data).get? 1 with
  | none => .fault
  | some field => if field = "MSO7034B".data then .ok else .mismatch

/-- `true` for an ASCII decimal digit. -/
def isDig (c : Char) : Bool := '0' ≤ c ∧ c ≤ '9'

/-- Numeric value of a digit list (most significant first); no validity
check — validity is checked separately with `List.all isDig`. -/
def digitsVal (cs : List Char) : ℕ :=
  cs.foldl (fun n c => 10 * n + (c.toNat - '0'.toNat)) 0

/-- The digits parse to a natural number only when non-empty and all
digits (Python `int`-style component of `float`). -/
def natOfDigits (cs : List Char) : Option ℕ :=
  if cs ≠ [] ∧ cs.all isDig then some (digitsVal cs) else none

/-- Split at the first character satisfying `sep`: the part before it and,
when present, the part after it. -/
def splitFirst (sep : Char → Bool) : List Char → List Char × Option (List Char)
  | [] => ([], none)
  | c :: cs =>
    if sep c then ([], some cs)
    else
      let r := splitFirst sep cs
      (c :: r.1, r.2)

/-- Strip an optional leading sign; `true` means negative. -/
def stripSign : List Char → Bool × List Char
  | '+' :: cs => (false, cs)
  | '-' :: cs => (true, cs)
  | cs => (false, cs)

/-- Parse a (signed) exponent part, an integer. -/
def parseExp (cs : List Char) : Option ℤ :=
  let (neg, cs₁) := stripSign cs
  (natOfDigits cs₁).map (fun n => if neg then -(n : ℤ) else (n : ℤ))

/-- Parse an unsigned mantissa: digits with an optional decimal point
(Python `float` accepts `"1."` and `".5"` but not `"."`). -/
def parseMantissa (cs : List Char) : Option ℚ :=
  let (ip, fp?) := splitFirst (fun c => c = '.') cs
  match fp? with
  | none => (natOfDigits ip).map (fun n => (n : ℚ))
  | some fp =>
    if (ip ≠ [] ∨ fp ≠ []) ∧ ip.all isDig ∧ fp.all isDig then
      some ((digitsVal (ip ++ fp) : ℚ) / 10 ^ fp.length)
    else none

/-- `10 ^ e` over `ℚ` for an integer exponent. -/
def pow10 (e : ℤ) : ℚ :=
  if 0 ≤ e then (10 : ℚ) ^ e.toNat else 1 / (10 : ℚ) ^ (-e).toNat

/-- Python's `float(s)` on the decimal/scientific grammar used by SCPI
numeric fields: optional sign, mantissa, optional `e`/`E` exponent.
`none` models the `ValueError` Python raises on a malformed field.
(Whitespace trimming, underscores and `inf`/`nan` are outside the SCPI
reply grammar and are not modelled.) -/
def pyFloat (cs : List Char) : Option ℚ :=
  let (neg, cs₁) := stripSign cs
  let (m, e?) := splitFirst (fun c => c = 'e' ∨ c = 'E') cs₁
  let mant? : Option ℚ :=
    match e? with
    | none => parseMantissa m
    | some ecs =>
      match parseMantissa m, parseExp ecs with
      | some q, some e => some (q * pow10 e)
      | _, _ => none
  mant?.map (fun q => if neg then -q else q)

/-- The six trailing preamble fields, line 92 of the script:
`xinc, xorg, xref, yinc, yorg, yref = [float(i) for i in r.split(',')[4:]]`. -/
structure Preamble where
  xinc : ℚ
  xorg : ℚ
  xref : ℚ
  yinc : ℚ
  yorg : ℚ
  yref : ℚ
deriving DecidableEq

/-- The list comprehension `[float(i) for i in fields]`: convert every
field, propagating the first `ValueError` (`none`). -/
def mapFloat : List (List Char) → Option (List ℚ)
  | [] => some []
  | f :: fs =>
    match pyFloat f, mapFloat fs with
    | some q, some qs => some (q :: qs)
    | _, _ => none

theorem mapFloat_length (fs : List (List Char)) (qs : List ℚ)
    (h : mapFloat fs = some qs) : qs.length = fs.length := by
  induction fs generalizing qs with
  | nil => simp [mapFloat] at h; simp [← h]
  | cons f fs ih =>
    simp only [mapFloat] at h
    cases hf : pyFloat f with
    | none => rw [hf] at h; exact absurd h (by simp)
    | some q =>
      rw [hf] at h
      cases hfs : mapFloat fs with
      | none => rw [hfs] at h; exact absurd h (by simp)
      | some qs' =>
        rw [hfs] at h
        cases h
        simp [ih qs' hfs]

/-- Line 92 of the script: split the preamble reply on commas, drop the
first four fields, convert every remaining field with `float`, and unpack
exactly six values.  `none` models the uncaught `ValueError` raised either
by `float` on a malformed field or by tuple unpacking when the slice
`[4:]` does not hold exactly six elements.  (The slice itself never
raises: Python slicing is total.) -/
def parse_preamble (r : String) : Option Preamble :=
  match mapFloat ((splitComma r.data).drop 4) with
  | some [xi, xo, xr, yi, yo, yr] => some ⟨xi, xo, xr, yi, yo, yr⟩
  | _ => none

/-- The spec's reading of the preamble parse: take the LAST six
comma-separated fields, whatever the total field count, and convert each
with `float`.  Kept for comparison with `parse_preamble`, which is what
the script actually does. -/
def parse_preamble_spec (r : String) : Option Preamble :=
  let fields := splitComma r.data
  match mapFloat (fields.drop (fields.length - 6)) with
  | some [xi, xo, xr, yi, yo, yr] => some ⟨xi, xo, xr, yi, yo, yr⟩
  | _ => none

/-- `numpy.arange(start, stop, step)` in exact arithmetic: the element
count is `ceil((stop - start) / step)` clamped at zero, and element `i` is
`start + i * step`.  (`numpy` raises on `step == 0`; the zero-length
result in that case is a modelling placeholder never relied on — every
theorem below assumes `step ≠ 0`.) -/
def arange (start stop step : ℚ) : List ℚ :=
  (List.range (if step = 0 then 0 else (⌈(stop - start) / step⌉).toNat)).map
    (fun (i : ℕ) => start + (i : ℚ) * step)

/-- The decoded record of lines 99–100: a voltage sequence and a time
sequence. -/
structure Waveform where
  volts : List ℚ
  time : List ℚ
deriving DecidableEq

/-- Lines 99–100 of the script, for raw samples `acq_data` and a parsed
preamble:
`volts = (acq_data - yref) * yinc + yorg` (elementwise over the array);
`time = np.arange(0, xinc * len(volts), xinc)`. -/
def waveformOf (p : Preamble) (acq_data : List ℕ) : Waveform :=
  let volts := acq_data.map (fun (a : ℕ) => ((a : ℚ) - p.yref) * p.yinc + p.yorg)
  { volts := volts
    time := arange 0 (p.xinc * volts.length) p.xinc }

/-- Lines 91–100 of the script as one function of the data actually read
from the instrument: parse the preamble reply, then scale the raw samples
into voltages and generate the time axis. -/
def decodePipeline (preamble_text : String) (acq_data : List ℕ) : Option Waveform :=
  (parse_preamble preamble_text).map (fun p => waveformOf p acq_data)

theorem parse_preamble_none_of_ne (r : String)
    (h : (splitComma r.data).length ≠ 10) : parse_preamble r = none := by
  have hlen : ((splitComma r.data).drop 4).length ≠ 6 := by
    rw [List.length_drop]; omega
  unfold parse_preamble
  cases hm : mapFloat ((splitComma r.data).drop 4) with
  | none => simp
  | some qs =>
    have hq := mapFloat_length _ _ hm
    rcases qs with _ | ⟨a, _ | ⟨b, _ | ⟨c, _ | ⟨d, _ | ⟨e, _ | ⟨f, _ | ⟨g, t⟩⟩⟩⟩⟩⟩⟩ <;>
      simp_all

/-- The synthetic preamble reply of the spec's round-trip property: four
leading fields (format, type, points, count) followed by
`x_increment=1e-5, x_origin=0, x_reference=0, y_increment=2e-3,
y_origin=0, y_reference=2048`. -/
def synthText : String := "1,2,1000,1,1e-5,0,0,2e-3,0,2048"

/-- The parsed form of `synthText`. -/
def synthP : Preamble := ⟨1/100000, 0, 0, 1/500, 0, 2048⟩

theorem pf_1e5 : pyFloat ['1', 'e', '-', '5'] = some (1/100000) := by
  simp [pyFloat, stripSign, splitFirst, parseMantissa, natOfDigits, digitsVal, isDig,
    parseExp, pow10]
  norm_num

theorem pf_2e3 : pyFloat ['2', 'e', '-', '3'] = some (1/500) := by
  simp [pyFloat, stripSign, splitFirst, parseMantissa, natOfDigits, digitsVal, isDig,
    parseExp, pow10]
  norm_num

theorem pf_0 : pyFloat ['0'] = some 0 := by
  simp [pyFloat, stripSign, splitFirst, parseMantissa, natOfDigits, digitsVal, isDig,
    parseExp, pow10]

theorem pf_2048 : pyFloat ['2', '0', '4', '8'] = some 2048 := by
  simp [pyFloat, stripSign, splitFirst, parseMantissa, natOfDigits, digitsVal, isDig,
    parseExp, pow10]

theorem parse_synth : parse_preamble synthText = some synthP := by
  have h : (splitComma synthText.data).drop 4 =
      ["1e-5".data, "0".data, "0".data, "2e-3".data, "0".data, "2048".data] := by decide
  rw [parse_preamble, h]
  simp only [mapFloat, pf_1e5, pf_0, pf_2e3, pf_2048]
  rfl

theorem pf_d6 : pyFloat ['6'] = some 6 := by
  simp [pyFloat, stripSign, splitFirst, parseMantissa, natOfDigits, digitsVal, isDig,
    parseExp, pow10]

theorem pf_d7 : pyFloat ['7'] = some 7 := by
  simp [pyFloat, stripSign, splitFirst, parseMantissa, natOfDigits, digitsVal, isDig,
    parseExp, pow10]

theorem pf_d8 : pyFloat ['8'] = some 8 := by
  simp [pyFloat, stripSign, splitFirst, parseMantissa, natOfDigits, digitsVal, isDig,
    parseExp, pow10]

theorem pf_d9 : pyFloat ['9'] = some 9 := by
  simp [pyFloat, stripSign, splitFirst, parseMantissa, natOfDigits, digitsVal, isDig,
    parseExp, pow10]

theorem pf_d10 : pyFloat ['1', '0'] = some 10 := by
  simp [pyFloat, stripSign, splitFirst, parseMantissa, natOfDigits, digitsVal, isDig,
    parseExp, pow10]

theorem pf_d11 : pyFloat ['1', '1'] = some 11 := by
  simp [pyFloat, stripSign, splitFirst, parseMantissa, natOfDigits, digitsVal, isDig,
    parseExp, pow10]

/-- C2 counterexample.  On a reply with eleven numeric fields, "take the
last six fields" would succeed (fields 6..11), but line 92 of the script
slices `[4:]` — seven fields — and the six-way tuple unpacking fails
(`ValueError`, modelled as `none`).  So the script does not take the last
six fields in general. -/
theorem C2_last_six_counterexample :
    parse_preamble "1,2,3,4,5,6,7,8,9,10,11" = none ∧
    parse_preamble_spec "1,2,3,4,5,6,7,8,9,10,11" = some ⟨6, 7, 8, 9, 10, 11⟩ := by
  constructor
  · exact parse_preamble_none_of_ne _ (by decide)
  · have h : List.drop ((splitComma ("1,2,3,4,5,6,7,8,9,10,11").data).length - 6)
        (splitComma ("1,2,3,4,5,6,7,8,9,10,11").data) =
        ["6".data, "7".data, "8".data, "9".data, "10".data, "11".data] := by decide
    simp only [parse_preamble_spec, h]
    simp only [mapFloat, pf_d6, pf_d7, pf_d8, pf_d9, pf_d10, pf_d11]

/-- C2 (amended).  Line 92 of the script slices the comma-split preamble
reply at `[4:]` — all fields after the first four.  That equals the last
six fields exactly when the reply has the documented ten fields; for any
other field count (in particular a reply with fewer than six trailing
numeric fields) the parse yields a controlled failure (`ValueError` from
unpacking or `float`, modelled `none`), never an index-out-of-range
fault — Python's slice is total. -/
theorem C2_preamble_parse (r : String) :
    ((splitComma r.data).length = 10 → parse_preamble r = parse_preamble_spec r) ∧
    ((splitComma r.data).length ≠ 10 → parse_preamble r = none) := by
  constructor
  · intro h
    simp only [parse_preamble, parse_preamble_spec]
    rw [h]
  · exact parse_preamble_none_of_ne r

theorem C2_preamble_parse_witness :
    ((splitComma synthText.data).length = 10 ∧
      parse_preamble synthText = parse_preamble_spec synthText) ∧
    ((splitComma ("1,2").data).length ≠ 10 ∧ parse_preamble "1,2" = none) :=
  ⟨⟨by decide, (C2_preamble_parse synthText).1 (by decide)⟩,
   ⟨by decide, (C2_preamble_parse "1,2").2 (by decide)⟩⟩

/-- C3.  The identity check at lines 39–42 accepts exactly when the second
comma-separated field of the `*idn?` reply is `MSO7034B`: it accepts the
documented reply, and rejects (aborting the run via `exit`) a reply whose
model field is `DSO5034`. -/
theorem C3_identity_check :
    (∀ r : String, idn_check r = IdnResult.ok ↔
      (splitComma r.data).get? 1 = some "MSO7034B".data) ∧
    idn_check "AGILENT TECHNOLOGIES,MSO7034B,MY12345,1.0" = IdnResult.ok ∧
    idn_check "AGILENT TECHNOLOGIES,DSO5034,MY12345,1.0" = IdnResult.mismatch := by
  refine ⟨fun r => ?_, by decide, by decide⟩
  unfold idn_check
  cases h : (splitComma r.data).get? 1 with
  | none => simp
  | some f => by_cases hf : f = "MSO7034B".data <;> simp [hf]

/-- C9.  A reply without a comma splits into a single field, so
`r.split(',')[1]` raises `IndexError` (modelled `fault`): the check faults
instead of reporting a mismatch. -/
theorem C9_idn_no_comma_faults (r : String) (h : ',' ∉ r.data) :
    idn_check r = IdnResult.fault := by
  unfold idn_check
  rw [splitComma_of_no_comma r.data h]
  rfl

theorem C9_idn_no_comma_faults_witness :
    (',' ∉ ("MSO7034B").data) ∧ idn_check "MSO7034B" = IdnResult.fault :=
  ⟨by decide, C9_idn_no_comma_faults "MSO7034B" (by decide)⟩

/-- C1.  Voltage scaling, line 99: for every preamble and every raw sample
(sentinel values included — classification is a separate concern and does
not alter scaling), the decoded voltage is
`(raw - y_reference) * y_increment + y_origin`; with the synthetic
preamble parsed from `synthText`, raw `2048` scales to `0` and raw `2148`
to `1/5` (= 0.2) exactly, and the sentinel raws `0`, `1`, `65535` also
scale by the same formula. -/
theorem C1_voltage_scaling :
    (∀ (p : Preamble) (acq_data : List ℕ) (i : ℕ) (hi : i < acq_data.length),
      (waveformOf p acq_data).volts.get? i =
        some (((acq_data.get ⟨i, hi⟩ : ℚ) - p.yref) * p.yinc + p.yorg)) ∧
    decodePipeline synthText [2048, 2148] = some (waveformOf synthP [2048, 2148]) ∧
    (waveformOf synthP [2048, 2148]).volts = [0, 1/5] ∧
    (waveformOf synthP [0, 1, 65535]).volts = [-512/125, -2047/500, 63487/500] := by
  refine ⟨fun p acq i hi => ?_, ?_, ?_, ?_⟩
  · have hv : (waveformOf p acq).volts =
        acq.map (fun (a : ℕ) => ((a : ℚ) - p.yref) * p.yinc + p.yorg) := by
      simp only [waveformOf]
    rw [hv, List.get?_map, List.get?_eq_get hi]
    rfl
  · rw [decodePipeline, parse_synth]; rfl
  · show ([2048, 2148] : List ℕ).map
        (fun (a : ℕ) => ((a : ℚ) - synthP.yref) * synthP.yinc + synthP.yorg) = [0, 1/5]
    simp only [List.map_cons, List.map_nil, synthP]
    norm_num
  · show ([0, 1, 65535] : List ℕ).map
        (fun (a : ℕ) => ((a : ℚ) - synthP.yref) * synthP.yinc + synthP.yorg) =
      [-512/125, -2047/500, 63487/500]
    simp only [List.map_cons, List.map_nil, synthP]
    norm_num

theorem C1_voltage_scaling_witness :
    (1 < ([2048, 2148] : List ℕ).length) ∧
    (waveformOf synthP [2048, 2148]).volts.get? 1 =
      some ((((([2048, 2148] : List ℕ).get ⟨1, by decide⟩) : ℚ) - synthP.yref) *
        synthP.yinc + synthP.yorg) :=
  ⟨by decide, C1_voltage_scaling.1 synthP [2048, 2148] 1 (by decide)⟩

/-- C4.  Time axis, line 100: `np.arange(0, xinc * len(volts), xinc)` in
exact arithmetic yields, for any nonzero `x_increment`, exactly one time
value per decoded sample, and the value at index `i` is `i * xinc`. -/
theorem C4_time_axis (p : Preamble) (acq_data : List ℕ) (h : p.xinc ≠ 0) :
    (waveformOf p acq_data).time =
      (List.range acq_data.length).map (fun (i : ℕ) => ((i : ℚ)) * p.xinc) ∧
    (waveformOf p acq_data).time.length = (waveformOf p acq_data).volts.length := by
  have harange : arange 0 (p.xinc * acq_data.length) p.xinc =
      (List.range acq_data.length).map (fun (i : ℕ) => ((i : ℚ)) * p.xinc) := by
    unfold arange
    rw [if_neg h, sub_zero, mul_div_cancel_left₀ _ h, Int.ceil_natCast,
      Int.toNat_natCast]
    simp only [zero_add]
  have hw : waveformOf p acq_data =
      { volts := acq_data.map (fun (a : ℕ) => ((a : ℚ) - p.yref) * p.yinc + p.yorg)
        time := arange 0 (p.xinc * acq_data.length) p.xinc } := by
    simp only [waveformOf, List.length_map]
  rw [hw]
  constructor
  · exact harange
  · rw [harange]
    simp only [List.length_map, List.length_range]

theorem C4_time_axis_witness :
    ((⟨1, 0, 0, 1, 0, 0⟩ : Preamble).xinc ≠ 0) ∧
    (waveformOf ⟨1, 0, 0, 1, 0, 0⟩ [5, 6]).time =
      (List.range ([5, 6] : List ℕ).length).map
        (fun (i : ℕ) => ((i : ℚ)) * (⟨1, 0, 0, 1, 0, 0⟩ : Preamble).xinc) ∧
    (waveformOf ⟨1, 0, 0, 1, 0, 0⟩ [5, 6]).time.length =
      (waveformOf ⟨1, 0, 0, 1, 0, 0⟩ [5, 6]).volts.length :=
  ⟨by decide, (C4_time_axis ⟨1, 0, 0, 1, 0, 0⟩ [5, 6] (by decide)).1,
    (C4_time_axis ⟨1, 0, 0, 1, 0, 0⟩ [5, 6] (by decide)).2⟩

/-- C10.  Noninterference of the unused preamble fields: `xorg` and `xref`
are parsed at line 92 but never read by lines 99–100, so two preambles
agreeing on `xinc`, `yinc`, `yorg`, `yref` — whatever their `xorg` and
`xref` — decode any sample list to identical time and voltage
sequences. -/
theorem C10_xorg_xref_unused (p₁ p₂ : Preamble) (acq_data : List ℕ)
    (hxi : p₁.xinc = p₂.xinc) (hyi : p₁.yinc = p₂.yinc)
    (hyo : p₁.yorg = p₂.yorg) (hyr : p₁.yref = p₂.yref) :
    waveformOf p₁ acq_data = waveformOf p₂ acq_data := by
  simp [waveformOf, hxi, hyi, hyo, hyr]

theorem C10_xorg_xref_unused_witness :
    ((⟨1, 5, 7, 1, 0, 0⟩ : Preamble).xinc = (⟨1, 9, 3, 1, 0, 0⟩ : Preamble).xinc) ∧
    ((⟨1, 5, 7, 1, 0, 0⟩ : Preamble).xorg ≠ (⟨1, 9, 3, 1, 0, 0⟩ : Preamble).xorg) ∧
    ((⟨1, 5, 7, 1, 0, 0⟩ : Preamble).xref ≠ (⟨1, 9, 3, 1, 0, 0⟩ : Preamble).xref) ∧
    waveformOf ⟨1, 5, 7, 1, 0, 0⟩ [3] = waveformOf ⟨1, 9, 3, 1, 0, 0⟩ [3] :=
  ⟨rfl, by decide, by decide,
    C10_xorg_xref_unused ⟨1, 5, 7, 1, 0, 0⟩ ⟨1, 9, 3, 1, 0, 0⟩ [3] rfl rfl rfl rfl⟩

/-- Sample classes documented in the comment block at lines 122–138 of the
script. -/
inductive SampleClass where
  | Normal
  | Hole
  | ClippedLow
  | ClippedHigh
deriving DecidableEq

/-- Modelled from the spec: the largest unsigned integer representable in
`sample_width` bytes (the script configures WORD format, width 2, so
`65535`). -/
def max_value_for_width (sample_width : ℕ) : ℕ := 2 ^ (8 * sample_width) - 1

/-- Modelled from the spec: `classify(raw, sample_width)` — the script has
no executable classification, only the protocol comment block at lines
122–138 (`0x0000` hole, `0x0001` clipped low, `0xFFFF` clipped high).  A
pure function of the raw value and width alone, applied before — and
independent of — voltage scaling. -/
def classify (raw sample_width : ℕ) : SampleClass :=
  if raw = 0 then .Hole
  else if raw = max_value_for_width sample_width then .ClippedHigh
  else if raw = 1 then .ClippedLow
  else .Normal

/-- C5.  For every raw value and positive width: `Hole` iff 0, `ClippedLow`
iff 1, `ClippedHigh` iff the maximum representable value, `Normal` iff none
of these — so the four classes are exhaustive and mutually exclusive. -/
theorem C5_classify (v w : ℕ) (hw : 0 < w) :
    (classify v w = SampleClass.Hole ↔ v = 0) ∧
    (classify v w = SampleClass.ClippedLow ↔ v = 1) ∧
    (classify v w = SampleClass.ClippedHigh ↔ v = max_value_for_width w) ∧
    (classify v w = SampleClass.Normal ↔
      (v ≠ 0 ∧ v ≠ 1 ∧ v ≠ max_value_for_width w)) := by
  have hmax : 2 ≤ max_value_for_width w := by
    unfold max_value_for_width
    have h8 : (2 : ℕ) ^ 8 ≤ 2 ^ (8 * w) := Nat.pow_le_pow_right (by norm_num) (by omega)
    omega
  unfold classify
  split_ifs with h0 hm h1
  · exact ⟨iff_of_true rfl h0,
      iff_of_false (by decide) (by omega),
      iff_of_false (by decide) (by omega),
      iff_of_false (by decide) (by simp [h0])⟩
  · exact ⟨iff_of_false (by decide) h0,
      iff_of_false (by decide) (by omega),
      iff_of_true rfl hm,
      iff_of_false (by decide) (by simp [hm])⟩
  · exact ⟨iff_of_false (by decide) h0,
      iff_of_true rfl h1,
      iff_of_false (by decide) hm,
      iff_of_false (by decide) (by simp [h1])⟩
  · exact ⟨iff_of_false (by decide) h0,
      iff_of_false (by decide) h1,
      iff_of_false (by decide) hm,
      iff_of_true rfl ⟨h0, h1, hm⟩⟩

theorem C5_classify_witness :
    0 < 2 ∧ (classify 5 2 = SampleClass.Hole ↔ (5 : ℕ) = 0) :=
  ⟨by decide, (C5_classify 5 2 (by decide)).1⟩

/-- Byte order configured at line 84 of the script
(`:waveform:byteorder lsbfirst`). -/
inductive ByteOrder where
  | lsbfirst
  | msbfirst
deriving DecidableEq

/-- Modelled from the spec: assemble one raw sample from a
`sample_width`-byte chunk in the given byte order (base 256). -/
def wordOf (byte_order : ByteOrder) (chunk : List ℕ) : ℕ :=
  match byte_order with
  | .lsbfirst => chunk.foldr (fun b acc => b + 256 * acc) 0
  | .msbfirst => chunk.foldl (fun acc b => 256 * acc + b) 0

/-- Split a byte list into consecutive `w`-byte chunks; the fuel (first
argument) bounds recursion depth and is instantiated with the list
length, which suffices whenever `w > 0`. -/
def chunksFuel : ℕ → ℕ → List ℕ → List (List ℕ)
  | 0, _, _ => []
  | _, _, [] => []
  | fuel + 1, w, bs => bs.take w :: chunksFuel fuel w (bs.drop w)

/-- Modelled from the spec: `decode_samples(bytes, sample_width,
byte_order)`.  The script delegates binary-block decoding to
`pyvisa`'s `query_binary_values(':waveform:data?', datatype='H')`
(line 96), whose implementation is not part of this repository; per the
spec, the byte length must be an exact multiple of `sample_width`,
otherwise decoding fails (`none`) — a partial trailing sample is a
framing bug and is never silently dropped. -/
def decode_samples (bs : List ℕ) (sample_width : ℕ) (byte_order : ByteOrder) :
    Option (List ℕ) :=
  if sample_width = 0 then none
  else if bs.length % sample_width ≠ 0 then none
  else some ((chunksFuel bs.length sample_width bs).map (wordOf byte_order))

/-- C6.  Any byte list whose length is not an exact multiple of the sample
width is rejected with a decode failure. -/
theorem C6_partial_sample_rejected (bs : List ℕ) (w : ℕ) (o : ByteOrder)
    (h : bs.length % w ≠ 0) : decode_samples bs w o = none := by
  unfold decode_samples
  by_cases hw : w = 0
  · rw [if_pos hw]
  · rw [if_neg hw, if_pos h]

theorem C6_partial_sample_rejected_witness :
    (([7, 8, 9] : List ℕ).length % 2 ≠ 0) ∧
    decode_samples [7, 8, 9] 2 ByteOrder.lsbfirst = none :=
  ⟨by decide, C6_partial_sample_rejected [7, 8, 9] 2 ByteOrder.lsbfirst (by decide)⟩

/-- The whole decode of one acquisition, lines 91–100: raw bytes are
decoded as unsigned 16-bit little-endian words (the format configured at
lines 82–84: `word`, `unsigned on`, `lsbfirst`), then scaled through the
parsed preamble. -/
def decode (preamble_text : String) (binary_block : List ℕ) : Option Waveform :=
  match decode_samples binary_block 2 ByteOrder.lsbfirst with
  | none => none
  | some acq_data => decodePipeline preamble_text acq_data

/-- The per-sample classification sequence of a binary block (spec-side
companion of `decode`; the script itself never computes it). -/
def classSeq (binary_block : List ℕ) : Option (List SampleClass) :=
  (decode_samples binary_block 2 ByteOrder.lsbfirst).map
    (fun raws => raws.map (fun v => classify v 2))

/-- C7.  Decoding is deterministic: the decode pipeline is a pure function
of the pair `(preamble_text, binary_block)`, so two runs on equal inputs
return bit-identical waveforms — equal time, voltage and class
sequences. -/
theorem C7_decode_deterministic (pt₁ pt₂ : String) (bb₁ bb₂ : List ℕ)
    (hpt : pt₁ = pt₂) (hbb : bb₁ = bb₂) :
    decode pt₁ bb₁ = decode pt₂ bb₂ ∧
    (decode pt₁ bb₁).map Waveform.time = (decode pt₂ bb₂).map Waveform.time ∧
    (decode pt₁ bb₁).map Waveform.volts = (decode pt₂ bb₂).map Waveform.volts ∧
    classSeq bb₁ = classSeq bb₂ := by
  subst hpt
  subst hbb
  exact ⟨rfl, rfl, rfl, rfl⟩

theorem C7_decode_deterministic_witness :
    decode synthText [0, 8, 100, 8] = decode synthText [0, 8, 100, 8] ∧
    (decode synthText [0, 8, 100, 8]).map Waveform.time =
      (decode synthText [0, 8, 100, 8]).map Waveform.time ∧
    (decode synthText [0, 8, 100, 8]).map Waveform.volts =
      (decode synthText [0, 8, 100, 8]).map Waveform.volts ∧
    classSeq [0, 8, 100, 8] = classSeq [0, 8, 100, 8] :=
  C7_decode_deterministic synthText synthText [0, 8, 100, 8] [0, 8, 100, 8] rfl rfl

/-- One observable action of the script on its collaborators: a SCPI
command write, a text query, a binary query, the `scope.clear()` call, or
the external stimulus invocation (the `ssh ... close_one` subprocess at
line 77). -/
inductive Event where
  | clear
  | write (cmd : String)
  | stimulus
  | query (cmd : String)
  | queryBinary (cmd : String)
deriving DecidableEq

/-- The configuration commands of lines 47–65, in source order. -/
def configCmds : List String :=
  [":timebase:mode main", ":timebase:range 1e-2", ":timebase:delay 0",
   ":timebase:reference left", ":channel1:probe 10", ":channel1:range 1.6e0",
   ":channel1:offset 0", ":channel1:coupling dc", ":trigger:mode edge",
   ":trigger:holdoff 1e0", ":trigger:level 0.1", ":trigger:hfreject on",
   ":trigger:reject hf", ":trigger:slope positive", ":trigger:source chan1",
   ":trigger:sweep normal", ":acquire:type normal", ":acquire:complete 100",
   ":acquire:count 1"]

/-- The straight-line trace of instrument-facing actions of the script,
lines 39–96: identity query; `scope.clear()`; `*rst`; the configuration
commands; the `:digitize` arm command; the external stimulus; the
waveform-readout setup writes; the range queries; the preamble query; the
binary data query. -/
def scriptTrace : List Event :=
  [Event.query "*idn?", Event.clear, Event.write "*rst"] ++
  configCmds.map Event.write ++
  [Event.write ":digitize channel1",
   Event.stimulus,
   Event.write ":waveform:source channel1",
   Event.write ":waveform:points 1000",
   Event.write ":waveform:format word",
   Event.write ":waveform:unsigned on",
   Event.write ":waveform:byteorder lsbfirst",
   Event.query ":timebase:range?",
   Event.query ":channel1:range?",
   Event.query ":waveform:preamble?",
   Event.queryBinary ":waveform:data?"]

/-- The clear-and-reset actions (lines 45–46). -/
def isResetClear : Event → Bool
  | .clear => true
  | .write c => c = "*rst"
  | _ => false

/-- A configuration command write (lines 47–65). -/
def isConfigCmd : Event → Bool
  | .write c => configCmds.contains c
  | _ => false

/-- The arm command (line 66): `:digitize` blocks the instrument until the
trigger fires, so issuing this write makes the arm outstanding. -/
def isArm : Event → Bool
  | .write c => c = ":digitize channel1"
  | _ => false

/-- The external stimulus action (line 77). -/
def isStimulus : Event → Bool
  | .stimulus => true
  | _ => false

/-- The waveform-data queries (lines 91 and 96). -/
def isWfmQuery : Event → Bool
  | .query c => c = ":waveform:preamble?"
  | .queryBinary c => c = ":waveform:data?"
  | _ => false

/-- Every `p`-event occurs strictly before every `q`-event in the trace:
after any `q`-event, no `p`-event follows. -/
def allPrecede (p q : Event → Bool) : List Event → Bool
  | [] => true
  | e :: rest => ((!q e) || rest.all (fun x => !p x)) && allPrecede p q rest

/-- C8.  In the script's command trace, each phase is present and the
phases are ordered: clear-and-reset precede every configuration command,
every configuration command precedes the arm (`:digitize`), the arm is
issued before the external stimulus fires, and the waveform queries come
only after the stimulus step. -/
theorem C8_command_order :
    scriptTrace.any isResetClear = true ∧
    scriptTrace.any isConfigCmd = true ∧
    scriptTrace.any isArm = true ∧
    scriptTrace.any isStimulus = true ∧
    scriptTrace.any isWfmQuery = true ∧
    allPrecede isResetClear isConfigCmd scriptTrace = true ∧
    allPrecede isConfigCmd isArm scriptTrace = true ∧
    allPrecede isArm isStimulus scriptTrace = true ∧
    allPrecede isStimulus isWfmQuery scriptTrace = true := by
  refine ⟨?_, ?_, ?_, ?_, ?_, ?_, ?_, ?_, ?_⟩ <;> decide
